import Mathlib

/-!
# Command dispatch of the vidar editor shell (`commander/commander.go`)

A shallow embedding of `Commander.Init`, `New` and `Commander.KeyPress`.

* The GUI toolkit (package `gxui`) is not part of the repository: its key and
  modifier constants are parameters (`Gxui`).
* `CommandBox` and `Controller` are Go interfaces.  An interface value is a
  record of methods acting on a heap `W`, the state of the objects behind
  `c.controller` and `c.box`.  `KeyPress` is embedded once, for every
  implementation of the two interfaces.
* `KeyPress` records every interface method it calls, in order, so that
  "calls `Execute` exactly once with `c`" is a statement about its result; the
  effect of the calls is stated on the heap it returns.
* The box implementation (`NewCommandBox`) and the `commands` package are
  defined outside commander.go; where a property needs them they are modelled
  from the specification (`specBox`, `Step`).
* Layout, theme, font and driver fields are not modelled: nothing below reads
  them.
* Go `int`s are integers; the only operations on them are equality and the
  bitwise or of modifier masks, so no overflow can occur.
-/

namespace Vidar

/-! ## Data model -/

/-- Keyboard event of the toolkit, `gxui.KeyboardEvent`: a key code and a
modifier bit mask, both Go `int`s.  It is the key type of the binding map, so
two events are the same key exactly when both fields agree. -/
structure KeyboardEvent where
  Key : Int
  Modifier : Int
deriving DecidableEq, Repr

/-- Constants of package `gxui` named by commander.go.  The package is outside
the repository, so their values are parameters. -/
structure Gxui where
  KeyEnter : Int
  KeyO : Int
  KeyN : Int
  ModControl : Int
  ModShift : Int
  ModSuper : Int

/-- The `CommandBox` interface (commander.go, lines 16-34).  `HasFocus` and
`Current` are documented as accessors and read the heap; `Run` returns
`requiresInput` and the new heap; `Clear` updates the heap. -/
structure CommandBox (Cmd W : Type) where
  HasFocus : W → Bool
  Run : Cmd → W → Bool × W
  Current : W → Option Cmd
  Clear : W → W

/-- The `Controller` interface (lines 47-52), restricted to the one method the
commander calls.  The argument is a Go interface value and may be nil, hence
`Option Cmd`. -/
structure Controller (Cmd W : Type) where
  Execute : Option Cmd → W → W

/-- Go `map[gxui.KeyboardEvent]commands.Command`, as the lookup it defines:
`none` is the `ok = false` result of `c.bindings[event]`. -/
abbrev Bindings (Cmd : Type) := KeyboardEvent → Option Cmd

/-- The map created by `make(map[gxui.KeyboardEvent]commands.Command)`. -/
def Bindings.make {Cmd : Type} : Bindings Cmd := fun _ => none

/-- Map assignment `m[k] = v`: the entry for `k` is replaced, the others stay. -/
def Bindings.set {Cmd : Type} (m : Bindings Cmd) (k : KeyboardEvent) (v : Cmd) : Bindings Cmd :=
  fun e => if e = k then some v else m e

/-- The `Commander` struct (lines 58-69): the two interface values, the command
list and the binding map, together with `heap`, the state of the objects the
interface values point to. -/
structure Commander (Cmd W : Type) where
  controller : Controller Cmd W
  box : CommandBox Cmd W
  heap : W
  commands : List Cmd
  bindings : Bindings Cmd

/-- What one call of `Init` obtains from constructors defined elsewhere:
`controller.New`, `NewCommandBox`, `commands.NewFileOpener` and
`commands.NewProjectAdder`, and the state `heap` of the fresh controller and
box. -/
structure Constructed (Cmd W : Type) where
  controller : Controller Cmd W
  box : CommandBox Cmd W
  heap : W
  openFile : Cmd
  addProject : Cmd

/-- One interface method call made by `KeyPress`. -/
inductive Call (Cmd : Type) where
  | HasFocus : Call Cmd
  | Run : Cmd → Call Cmd
  | Current : Call Cmd
  | Execute : Option Cmd → Call Cmd
  | Clear : Call Cmd
deriving DecidableEq, Repr

/-- Result of `KeyPress`: the returned `consume`, the commander afterwards and
the interface calls made, in order. -/
structure KeyPressResult (Cmd W : Type) where
  consume : Bool
  commander : Commander Cmd W
  calls : List (Call Cmd)

/-! ## Operations of commander.go -/

/-- `Commander.Init` (lines 79-120).  `c.bindings` is replaced by a fresh map,
controller and box are replaced by fresh objects, and each built-in command is
appended to `c.commands` and bound to its two chords. -/
def Commander.Init {Cmd W : Type} (K : Gxui) (n : Constructed Cmd W)
    (c : Commander Cmd W) : Commander Cmd W :=
  let c := { c with bindings := Bindings.make }
  let c := { c with controller := n.controller, heap := n.heap }
  let c := { c with box := n.box }
  let openFile := n.openFile
  let c := { c with commands := c.commands ++ [openFile] }
  let ctrlO : KeyboardEvent := { Key := K.KeyO, Modifier := K.ModControl }
  let supO : KeyboardEvent := { Key := K.KeyO, Modifier := K.ModSuper }
  let c := { c with bindings := c.bindings.set ctrlO openFile }
  let c := { c with bindings := c.bindings.set supO openFile }
  let addProject := n.addProject
  let c := { c with commands := c.commands ++ [addProject] }
  let ctrlShiftN : KeyboardEvent :=
    { Key := K.KeyN, Modifier := Int.lor K.ModControl K.ModShift }
  let supShiftN : KeyboardEvent :=
    { Key := K.KeyN, Modifier := Int.lor K.ModSuper K.ModShift }
  let c := { c with bindings := c.bindings.set ctrlShiftN addProject }
  let c := { c with bindings := c.bindings.set supShiftN addProject }
  c

/-- The value allocated by `new(Commander)`: a nil command slice and a nil map
(every lookup misses).  The controller and box fields are nil in Go and are
assigned by `Init` before anything reads them; the record holds the objects
`Init` installs. -/
def Commander.zero {Cmd W : Type} (n : Constructed Cmd W) : Commander Cmd W :=
  { controller := n.controller, box := n.box, heap := n.heap,
    commands := [], bindings := fun _ => none }

/-- `New` (lines 72-76): allocate, `Init`, return. -/
def New {Cmd W : Type} (K : Gxui) (n : Constructed Cmd W) : Commander Cmd W :=
  let commander := Commander.zero n
  commander.Init K n

/-- Lines 136-141 of `KeyPress`: with `cmdDone` set, execute `c.box.Current()`,
clear the box and consume; otherwise do not consume. -/
def Commander.finish {Cmd W : Type} (c : Commander Cmd W) (cmdDone : Bool)
    (calls : List (Call Cmd)) : KeyPressResult Cmd W :=
  if cmdDone then
    let arg := c.box.Current c.heap
    let h1 := c.controller.Execute arg c.heap
    let h2 := c.box.Clear h1
    { consume := true, commander := { c with heap := h2 },
      calls := calls ++ [Call.Current, Call.Execute arg, Call.Clear] }
  else
    { consume := false, commander := c, calls := calls }

/-- `Commander.KeyPress` (lines 128-142). -/
def Commander.KeyPress {Cmd W : Type} (K : Gxui) (c : Commander Cmd W)
    (event : KeyboardEvent) : KeyPressResult Cmd W :=
  let cmdDone := c.box.HasFocus c.heap && decide (event.Modifier = 0)
    && decide (event.Key = K.KeyEnter)
  let calls := [Call.HasFocus]
  match c.bindings event with
  | some command =>
    let r := c.box.Run command c.heap
    let calls := calls ++ [Call.Run command]
    if r.1 then
      { consume := true, commander := { c with heap := r.2 }, calls := calls }
    else
      let cmdDone := true
      Commander.finish { c with heap := r.2 } cmdDone calls
  | none => Commander.finish c cmdDone calls

/-! ## Collaborators modelled from the specification -/

/-- Modelled from the spec: the input step returned by a command's `Next()`
(package `commands`, outside commander.go).  A step may carry the optional Completer
capability, a decision on keyboard events. -/
structure Step where
  completer : Option (KeyboardEvent → Bool)

/-- Modelled from the spec: the state of the command box, "current command
(nullable)" and "focus flag" (spec section 3). -/
structure BoxState (Cmd : Type) where
  current : Option Cmd
  focus : Bool
deriving DecidableEq, Repr

/-- Modelled from the spec: the `CommandBox` implementation behind
`NewCommandBox` (defined outside commander.go), over a heap made of the box
state and the rest `R` of the world.  Spec section 4.2: `Run` of a command whose
`Next()` yields nothing returns false; `Run` of a command with a further step
stores it as current, takes focus and returns true, replacing any command in
progress.  In both cases the command run is the one `Current()` then returns
(the caller executes `box.Current()` and the spec requires that to be the
command just run; "Current returns the command that is currently running").
`Clear` resets to Idle: no current command. -/
def specBox {Cmd R : Type} (Next : Cmd → Option Step) : CommandBox Cmd (BoxState Cmd × R) where
  HasFocus := fun w => w.1.focus
  Run := fun command w =>
    match Next command with
    | none => (false, ({ w.1 with current := some command }, w.2))
    | some _ => (true, ({ current := some command, focus := true }, w.2))
  Current := fun w => w.1.current
  Clear := fun w => ({ w.1 with current := none }, w.2)

/-- Modelled from the spec: the decision on an event of the Completer carried
by the step that a command's `Next()` returns; none when the command offers no
step or its step has no Completer. -/
def completerDecision {Cmd : Type} (Next : Cmd → Option Step) (command : Cmd)
    (e : KeyboardEvent) : Option Bool :=
  match Next command with
  | some s =>
    match s.completer with
    | some f => some (f e)
    | none => none
  | none => none

/-! ## Vocabulary for the statements -/

/-- The same commander once the objects behind its controller and box have
reached state `h`. -/
def Commander.withHeap {Cmd W : Type} (c : Commander Cmd W) (h : W) : Commander Cmd W :=
  { c with heap := h }

/-- The chord Control+O bound by `Init` (`ctrlO`, lines 97-100). -/
def ctrlO (K : Gxui) : KeyboardEvent := { Key := K.KeyO, Modifier := K.ModControl }

/-- The chord Super+O bound by `Init` (`supO`, lines 101-104). -/
def supO (K : Gxui) : KeyboardEvent := { Key := K.KeyO, Modifier := K.ModSuper }

/-- The chord Control+Shift+N bound by `Init` (`ctrlShiftN`, lines 110-113). -/
def ctrlShiftN (K : Gxui) : KeyboardEvent :=
  { Key := K.KeyN, Modifier := Int.lor K.ModControl K.ModShift }

/-- The chord Super+Shift+N bound by `Init` (`supShiftN`, lines 114-117). -/
def supShiftN (K : Gxui) : KeyboardEvent :=
  { Key := K.KeyN, Modifier := Int.lor K.ModSuper K.ModShift }

/-- The unmodified Enter key. -/
def enterKey (K : Gxui) : KeyboardEvent := { Key := K.KeyEnter, Modifier := 0 }

/-- The three modifier masks named by commander.go are single bits, pairwise
different, as bit masks of a toolkit are. -/
def Gxui.ModsSingleBits (K : Gxui) : Prop :=
  ∃ a b c : Nat, a ≠ b ∧ a ≠ c ∧ b ≠ c ∧
    K.ModShift = 2 ^ a ∧ K.ModControl = 2 ^ b ∧ K.ModSuper = 2 ^ c

/-! ## Concrete inputs

A small world on which the general results are instantiated. -/

/-- A concrete assignment of the toolkit constants: three distinct key codes
and one bit per modifier. -/
def sampleGxui : Gxui :=
  { KeyEnter := 52, KeyO := 33, KeyN := 32, ModControl := 2, ModShift := 1, ModSuper := 8 }

/-- Three commands: the two built-in ones and one whose input step brings its
own Completer. -/
inductive SampleCommand where
  | openFile : SampleCommand
  | addProject : SampleCommand
  | custom : SampleCommand
deriving DecidableEq, Repr

/-- The unmodified Escape key of the sample world. -/
def sampleEscape : KeyboardEvent := { Key := 51, Modifier := 0 }

/-- `Next()` of the sample commands: the file opener offers no step, the
project adder offers a step without Completer, and the third command offers a
step whose Completer accepts the Escape key only. -/
def sampleNext : SampleCommand → Option Step
  | SampleCommand.openFile => none
  | SampleCommand.addProject => some { completer := none }
  | SampleCommand.custom => some { completer := some (fun e => decide (e = sampleEscape)) }

/-- Heap of the sample world: the box state and the log of the commands the
controller has been asked to execute. -/
abbrev SampleHeap := BoxState SampleCommand × List (Option SampleCommand)

/-- A controller that logs what it is asked to execute. -/
def sampleController : Controller SampleCommand SampleHeap :=
  { Execute := fun a w => (w.1, w.2 ++ [a]) }

/-- What the constructors return in the sample world: an unfocused, idle box. -/
def sampleConstructed : Constructed SampleCommand SampleHeap :=
  { controller := sampleController, box := specBox sampleNext,
    heap := ({ current := none, focus := false }, []),
    openFile := SampleCommand.openFile, addProject := SampleCommand.addProject }

/-- The sample commander returned by `New`, with the box put in a given state. -/
def sampleCommander (b : BoxState SampleCommand) : Commander SampleCommand SampleHeap :=
  (New sampleGxui sampleConstructed).withHeap (b, [])

/-- The sample commander with the box focused on the staged third command and
the unmodified Enter key bound, in addition, to command `b`. -/
def sampleEnterBound (b : SampleCommand) : Commander SampleCommand SampleHeap :=
  { sampleCommander { current := some SampleCommand.custom, focus := true } with
    bindings := (sampleCommander { current := some SampleCommand.custom, focus := true }).bindings.set
      (enterKey sampleGxui) b }

end Vidar

namespace Vidar

/-! ## Properties of `KeyPress` for every box and controller -/

section Generic

variable {Cmd W : Type}

theorem KeyPress_unbound (K : Gxui) (c : Commander Cmd W) (e : KeyboardEvent)
    (hb : c.bindings e = none) :
    c.KeyPress K e = c.finish
      (c.box.HasFocus c.heap && decide (e.Modifier = 0) && decide (e.Key = K.KeyEnter))
      [Call.HasFocus] := by
  simp [Commander.KeyPress, hb]

theorem KeyPress_bound (K : Gxui) (c : Commander Cmd W) (e : KeyboardEvent) (command : Cmd)
    (hb : c.bindings e = some command) :
    c.KeyPress K e =
      if (c.box.Run command c.heap).1 then
        { consume := true, commander := { c with heap := (c.box.Run command c.heap).2 },
          calls := [Call.HasFocus, Call.Run command] }
      else
        Commander.finish { c with heap := (c.box.Run command c.heap).2 } true
          [Call.HasFocus, Call.Run command] := by
  simp [Commander.KeyPress, hb]

/-- C1: `KeyPress` consumes the event exactly when the event is a key of the
binding table, or the box had focus on entry and the event is the unmodified
Enter key; in every other case it returns false. -/
theorem KeyPress_consume_iff (K : Gxui) (c : Commander Cmd W) (e : KeyboardEvent) :
    (c.KeyPress K e).consume = true ↔
      ((c.bindings e).isSome = true ∨
        (c.box.HasFocus c.heap = true ∧ e.Modifier = 0 ∧ e.Key = K.KeyEnter)) := by
  cases hb : c.bindings e with
  | none =>
    rw [KeyPress_unbound K c e hb]
    by_cases hf : c.box.HasFocus c.heap = true <;> by_cases hm : e.Modifier = 0 <;>
      by_cases hk : e.Key = K.KeyEnter <;> simp [Commander.finish, hf, hm, hk]
  | some command =>
    rw [KeyPress_bound K c e command hb]
    by_cases hr : (c.box.Run command c.heap).1 = true <;> simp [Commander.finish, hr]

/-- C6: an event that is not a key of the binding table and does not meet the
default completion condition is not consumed; `KeyPress` then calls nothing but
`HasFocus` (no `Run`, `Clear` or `Execute`) and returns the commander, with its
box state, heap and binding table, exactly as it was. -/
theorem KeyPress_passes_through (K : Gxui) (c : Commander Cmd W) (e : KeyboardEvent)
    (hb : c.bindings e = none)
    (hd : ¬ (c.box.HasFocus c.heap = true ∧ e.Modifier = 0 ∧ e.Key = K.KeyEnter)) :
    (c.KeyPress K e).consume = false ∧
      (c.KeyPress K e).calls = [Call.HasFocus] ∧
      (c.KeyPress K e).commander = c := by
  rw [KeyPress_unbound K c e hb]
  have h : (c.box.HasFocus c.heap && decide (e.Modifier = 0) && decide (e.Key = K.KeyEnter))
      = false := by
    by_cases hf : c.box.HasFocus c.heap = true <;> by_cases hm : e.Modifier = 0 <;>
      by_cases hk : e.Key = K.KeyEnter <;> simp_all
  simp [Commander.finish, h]

end Generic

end Vidar

namespace Vidar

/-! ## Properties that depend on the command box -/

section Box

variable {Cmd R : Type}

/-- C2: when the event is bound to a command for which `Run` returns false, the
same key press is consumed, `Execute` is called exactly once, with that very
command, `Clear` follows, and `Current()` is none afterwards; this holds
whatever the box held before.  The state left behind is the one obtained by
running the command in the box, then applying the controller's `Execute` to
that very command, then `Clear`. -/
theorem KeyPress_bound_immediate (K : Gxui) (Next : Cmd → Option Step)
    (c : Commander Cmd (BoxState Cmd × R)) (e : KeyboardEvent) (command : Cmd)
    (hbox : c.box = specBox Next)
    (hb : c.bindings e = some command)
    (hr : (c.box.Run command c.heap).1 = false) :
    (c.KeyPress K e).consume = true ∧
      (c.KeyPress K e).calls =
        [Call.HasFocus, Call.Run command, Call.Current, Call.Execute (some command),
          Call.Clear] ∧
      (c.KeyPress K e).commander.heap =
        c.box.Clear (c.controller.Execute (some command) (c.box.Run command c.heap).2) ∧
      (c.KeyPress K e).commander.box.Current (c.KeyPress K e).commander.heap = none ∧
      (c.KeyPress K e).commander.bindings = c.bindings ∧
      (c.KeyPress K e).commander.commands = c.commands := by
  rw [KeyPress_bound K c e command hb]
  obtain ⟨ctrl, box, heap, cmds, binds⟩ := c
  simp only at hbox hr
  subst hbox
  cases hn : Next command with
  | none => simp [Commander.finish, specBox, hn]
  | some s => simp [specBox, hn] at hr

/-- C3: when the event is bound to a command for which `Run` returns true, the
key press is consumed, neither `Execute` nor `Clear` is called, and the box is
left awaiting input with `Current()` the command and `HasFocus()` true; no
assumption is made on the event or on the focus before, so the unmodified Enter
key on a focused box is included. -/
theorem KeyPress_bound_staged (K : Gxui) (Next : Cmd → Option Step)
    (c : Commander Cmd (BoxState Cmd × R)) (e : KeyboardEvent) (command : Cmd)
    (hbox : c.box = specBox Next)
    (hb : c.bindings e = some command)
    (hr : (c.box.Run command c.heap).1 = true) :
    (c.KeyPress K e).consume = true ∧
      (c.KeyPress K e).calls = [Call.HasFocus, Call.Run command] ∧
      (c.KeyPress K e).commander.box.Current (c.KeyPress K e).commander.heap = some command ∧
      (c.KeyPress K e).commander.box.HasFocus (c.KeyPress K e).commander.heap = true := by
  rw [KeyPress_bound K c e command hb]
  obtain ⟨ctrl, box, heap, cmds, binds⟩ := c
  simp only at hbox hr
  subst hbox
  cases hn : Next command with
  | none => simp [specBox, hn] at hr
  | some s => simp [specBox, hn]

end Box

end Vidar

namespace Vidar

/-! ## The state built by `Init` and `New` -/

section Construction

variable {Cmd W : Type}

theorem lor_natCast (x y : Nat) : Int.lor (x : Int) (y : Int) = ((x ||| y : Nat) : Int) := rfl

theorem natCast_ne_of_testBit (x y i : Nat) (h : x.testBit i ≠ y.testBit i) :
    (x : Int) ≠ (y : Int) := by
  intro hxy
  apply h
  rw [Int.natCast_inj.mp hxy]

theorem two_pow_natCast (n : Nat) : (2 : Int) ^ n = ((2 ^ n : Nat) : Int) := by
  push_cast
  rfl

/-- What single-bit modifier masks give: the masks used by `Init` and by the
neighbouring chords are different from each other. -/
theorem Gxui.ModsSingleBits.separate {K : Gxui} (h : K.ModsSingleBits) :
    K.ModControl ≠ K.ModSuper ∧
      Int.lor K.ModControl K.ModShift ≠ Int.lor K.ModSuper K.ModShift ∧
      Int.lor K.ModControl K.ModSuper ≠ K.ModControl ∧
      Int.lor K.ModControl K.ModSuper ≠ K.ModSuper ∧
      K.ModControl ≠ Int.lor K.ModControl K.ModShift ∧
      K.ModControl ≠ Int.lor K.ModSuper K.ModShift := by
  obtain ⟨a, b, c, hab, hac, hbc, hS, hC, hU⟩ := h
  rw [hS, hC, hU]
  simp only [two_pow_natCast, lor_natCast]
  refine ⟨?_, ?_, ?_, ?_, ?_, ?_⟩
  · apply natCast_ne_of_testBit _ _ b
    simp [Nat.testBit_two_pow, hbc, Ne.symm hbc]
  · apply natCast_ne_of_testBit _ _ b
    simp [Nat.testBit_lor, Nat.testBit_two_pow, hab, hbc, Ne.symm hbc]
  · apply natCast_ne_of_testBit _ _ c
    simp [Nat.testBit_lor, Nat.testBit_two_pow, hbc, Ne.symm hbc]
  · apply natCast_ne_of_testBit _ _ b
    simp [Nat.testBit_lor, Nat.testBit_two_pow, hbc, Ne.symm hbc]
  · apply natCast_ne_of_testBit _ _ a
    simp [Nat.testBit_lor, Nat.testBit_two_pow, hab, Ne.symm hab]
  · apply natCast_ne_of_testBit _ _ b
    simp [Nat.testBit_lor, Nat.testBit_two_pow, hab, hbc, Ne.symm hbc]

/-- The binding table after `New`, read off the four assignments of `Init`
(the last assignment is looked at first). -/
theorem New_bindings_apply (K : Gxui) (n : Constructed Cmd W) (e : KeyboardEvent) :
    (New K n).bindings e =
      if e = supShiftN K then some n.addProject
      else if e = ctrlShiftN K then some n.addProject
      else if e = supO K then some n.openFile
      else if e = ctrlO K then some n.openFile
      else none := rfl

/-- The Enter key is none of the chords bound by `New`, whatever the modifiers. -/
theorem New_bindings_enter (K : Gxui) (n : Constructed Cmd W) (m : Int)
    (hO : K.KeyEnter ≠ K.KeyO) (hN : K.KeyEnter ≠ K.KeyN) :
    (New K n).bindings { Key := K.KeyEnter, Modifier := m } = none := by
  rw [New_bindings_apply]
  simp [supShiftN, ctrlShiftN, supO, ctrlO, hO, hN]

/-- C8: in the commander returned by `New` the four built-in chords are four
different keys of the binding table, Control+O and Super+O resolve to the one
file opener, Control+Shift+N and Super+Shift+N to the one project adder, and
every other chord is unbound, for instance O with Control|Super and N with
Control alone; chords are equal exactly when key and modifier mask are. -/
theorem New_binds_four_chords (K : Gxui) (n : Constructed Cmd W)
    (hkeys : K.KeyO ≠ K.KeyN) (hmods : K.ModsSingleBits) :
    [ctrlO K, supO K, ctrlShiftN K, supShiftN K].Nodup ∧
      (New K n).bindings (ctrlO K) = some n.openFile ∧
      (New K n).bindings (supO K) = some n.openFile ∧
      (New K n).bindings (ctrlShiftN K) = some n.addProject ∧
      (New K n).bindings (supShiftN K) = some n.addProject ∧
      (∀ e, e ∉ [ctrlO K, supO K, ctrlShiftN K, supShiftN K] →
        (New K n).bindings e = none) ∧
      (New K n).bindings { Key := K.KeyO, Modifier := Int.lor K.ModControl K.ModSuper } = none ∧
      (New K n).bindings { Key := K.KeyN, Modifier := K.ModControl } = none ∧
      (∀ e₁ e₂ : KeyboardEvent, e₁ = e₂ ↔ (e₁.Key = e₂.Key ∧ e₁.Modifier = e₂.Modifier)) := by
  obtain ⟨h1, h2, h3, h4, h5, h6⟩ := hmods.separate
  have hkeys2 : K.KeyN ≠ K.KeyO := Ne.symm hkeys
  refine ⟨?_, ?_, ?_, ?_, ?_, ?_, ?_, ?_, ?_⟩
  · simp [ctrlO, supO, ctrlShiftN, supShiftN, hkeys, h1, h2]
  · rw [New_bindings_apply]
    simp [ctrlO, supO, ctrlShiftN, supShiftN, hkeys]
  · rw [New_bindings_apply]
    simp [ctrlO, supO, ctrlShiftN, supShiftN, hkeys]
  · rw [New_bindings_apply]
    simp [ctrlO, supO, ctrlShiftN, supShiftN, hkeys]
  · rw [New_bindings_apply]
    simp [ctrlO, supO, ctrlShiftN, supShiftN, hkeys]
  · intro e he
    rw [New_bindings_apply]
    simp only [List.mem_cons, List.mem_singleton, List.not_mem_nil, or_false, not_or] at he
    simp [he.1, he.2.1, he.2.2.1, he.2.2.2]
  · rw [New_bindings_apply]
    simp [ctrlO, supO, ctrlShiftN, supShiftN, hkeys, h3, h4]
  · rw [New_bindings_apply]
    simp [ctrlO, supO, ctrlShiftN, supShiftN, hkeys2, h5, h6]
  · intro e₁ e₂
    cases e₁
    cases e₂
    simp

/-- C9: `Init` does not reset the command list, it appends to it.  After `Init`
the list is the prior list followed by the file opener and the project adder,
so a commander built by `New` and initialised once more holds four entries,
not two.  The binding table, in contrast, is rebuilt from an empty map and does
not depend on the prior state. -/
theorem Init_appends_commands (K : Gxui) (n m : Constructed Cmd W) (c : Commander Cmd W) :
    (c.Init K n).commands = c.commands ++ [n.openFile, n.addProject] ∧
      ((New K n).Init K m).commands = [n.openFile, n.addProject, m.openFile, m.addProject] ∧
      ((New K n).Init K m).commands.length = 4 ∧
      (c.Init K n).bindings = (New K n).bindings := by
  refine ⟨?_, ?_, ?_, ?_⟩
  · simp [Commander.Init]
  · simp [Commander.Init, New, Commander.zero]
  · simp [Commander.Init, New, Commander.zero]
  · rfl

end Construction

end Vidar

namespace Vidar

/-! ## Completion by the Enter key -/

section Completion

variable {Cmd W R : Type}

/-- C4: in the commander built by `New`, with a command staged in a focused
box, Enter without modifier is consumed, calls `Execute` exactly once, with the
staged command, and then `Clear`; Enter with any non-zero modifier mask is not
consumed, calls nothing but `HasFocus` and leaves everything, the staged command
included, as it was. -/
theorem KeyPress_enter_on_staged (K : Gxui) (n : Constructed Cmd W) (h : W) (command : Cmd)
    (m : Int) (hO : K.KeyEnter ≠ K.KeyO) (hN : K.KeyEnter ≠ K.KeyN)
    (hf : n.box.HasFocus h = true) (hc : n.box.Current h = some command) :
    (m = 0 →
      (((New K n).withHeap h).KeyPress K { Key := K.KeyEnter, Modifier := m }).consume = true ∧
      (((New K n).withHeap h).KeyPress K { Key := K.KeyEnter, Modifier := m }).calls =
        [Call.HasFocus, Call.Current, Call.Execute (some command), Call.Clear] ∧
      (((New K n).withHeap h).KeyPress K { Key := K.KeyEnter, Modifier := m }).commander.heap =
        n.box.Clear (n.controller.Execute (some command) h)) ∧
    (m ≠ 0 →
      (((New K n).withHeap h).KeyPress K { Key := K.KeyEnter, Modifier := m }).consume = false ∧
      (((New K n).withHeap h).KeyPress K { Key := K.KeyEnter, Modifier := m }).calls =
        [Call.HasFocus] ∧
      (((New K n).withHeap h).KeyPress K { Key := K.KeyEnter, Modifier := m }).commander =
        (New K n).withHeap h) := by
  have hb : ((New K n).withHeap h).bindings { Key := K.KeyEnter, Modifier := m } = none :=
    New_bindings_enter K n m hO hN
  have hf2 : ((New K n).withHeap h).box.HasFocus ((New K n).withHeap h).heap = true := hf
  have hc2 : ((New K n).withHeap h).box.Current ((New K n).withHeap h).heap = some command := hc
  rw [KeyPress_unbound K _ _ hb]
  constructor
  · intro hm
    simp only [hf2, hm, Commander.finish, hc2]
    simp
    rfl
  · intro hm
    simp [hf2, hm, Commander.finish]

/-- C5: `KeyPress` never consults the Completer of the staged command's step,
against the doc comment of `Completer` and against the claim.  With the box
focused on a staged command whose Completer rejects the unmodified Enter key
and accepts the key `k`, neither key being bound, Enter is consumed, the
controller's `Execute` is applied to the staged command and the box is
cleared, while `k` is not consumed, calls nothing but `HasFocus` and leaves the
command staged and not executed. -/
theorem KeyPress_ignores_completer (K : Gxui) (Next : Cmd → Option Step)
    (c : Commander Cmd (BoxState Cmd × R)) (command : Cmd) (k : KeyboardEvent)
    (hbox : c.box = specBox Next)
    (hstage : c.heap.1 = { current := some command, focus := true })
    (hEnter : completerDecision Next command (enterKey K) = some false)
    (hkey : completerDecision Next command k = some true)
    (hbe : c.bindings (enterKey K) = none) (hbk : c.bindings k = none) :
    ((c.KeyPress K (enterKey K)).consume = true ∧
      (c.KeyPress K (enterKey K)).calls =
        [Call.HasFocus, Call.Current, Call.Execute (some command), Call.Clear] ∧
      (c.KeyPress K (enterKey K)).commander.heap =
        c.box.Clear (c.controller.Execute (some command) c.heap) ∧
      (c.KeyPress K (enterKey K)).commander.box.Current
        (c.KeyPress K (enterKey K)).commander.heap = none) ∧
    ((c.KeyPress K k).consume = false ∧
      (c.KeyPress K k).calls = [Call.HasFocus] ∧
      (c.KeyPress K k).commander = c) := by
  have hk : k ≠ enterKey K := by
    intro h
    rw [h, hEnter] at hkey
    simp at hkey
  have hk2 : ¬ (k.Modifier = 0 ∧ k.Key = K.KeyEnter) := by
    intro h
    apply hk
    cases k
    simp only [enterKey, KeyboardEvent.mk.injEq]
    exact ⟨h.2, h.1⟩
  rw [KeyPress_unbound K c _ hbe, KeyPress_unbound K c _ hbk]
  obtain ⟨ctrl, box, heap, cmds, binds⟩ := c
  simp only at hbox hstage
  subst hbox
  constructor
  · simp [Commander.finish, specBox, hstage, enterKey]
  · have h : (decide (k.Modifier = 0) && decide (k.Key = K.KeyEnter)) = false := by
      by_cases hm : k.Modifier = 0 <;> by_cases hkk : k.Key = K.KeyEnter <;> simp_all
    simp [Commander.finish, specBox, hstage, Bool.and_assoc, h]

/-- C7, as the code has it: a chord of the binding table takes precedence over
the default completion, for every box and controller.  With the box focused (so
that the default completion condition holds, whatever command is staged) and
the unmodified Enter key bound to `b`, the key press is consumed and first
calls `Run(b)`.  When `Run` returns true, `KeyPress` returns at once: neither
`Execute` nor `Clear` is called or applied, and the state is the one `Run(b)`
left.  When `Run` returns false, `Execute` is called exactly once, with what
`Current()` returns after `Run(b)`, and applied to the state `Run(b)` left;
`Clear` follows. -/
theorem KeyPress_bound_enter (K : Gxui) (c : Commander Cmd W) (b : Cmd)
    (hf : c.box.HasFocus c.heap = true)
    (hb : c.bindings (enterKey K) = some b) :
    (c.box.HasFocus c.heap && decide ((enterKey K).Modifier = 0)
      && decide ((enterKey K).Key = K.KeyEnter)) = true ∧
    (c.KeyPress K (enterKey K)).consume = true ∧
    (c.KeyPress K (enterKey K)).commander.bindings = c.bindings ∧
    ((c.box.Run b c.heap).1 = true →
      (c.KeyPress K (enterKey K)).calls = [Call.HasFocus, Call.Run b] ∧
      (c.KeyPress K (enterKey K)).commander.heap = (c.box.Run b c.heap).2) ∧
    ((c.box.Run b c.heap).1 = false →
      (c.KeyPress K (enterKey K)).calls =
        [Call.HasFocus, Call.Run b, Call.Current,
          Call.Execute (c.box.Current (c.box.Run b c.heap).2), Call.Clear] ∧
      (c.KeyPress K (enterKey K)).commander.heap =
        c.box.Clear (c.controller.Execute (c.box.Current (c.box.Run b c.heap).2)
          (c.box.Run b c.heap).2)) := by
  rw [KeyPress_bound K c _ b hb]
  by_cases hr : (c.box.Run b c.heap).1 = true
  · simp [hr, hf, enterKey]
  · simp [hr, hf, enterKey, Commander.finish]

/-- C10: `KeyPress` hands `c.box.Current()` to `Execute` without looking at it.
When the box has focus, no command is staged and the unmodified Enter key is
not bound, the call made is `Execute(nil)`. -/
theorem KeyPress_executes_nil (K : Gxui) (c : Commander Cmd W)
    (hb : c.bindings (enterKey K) = none)
    (hf : c.box.HasFocus c.heap = true) (hc : c.box.Current c.heap = none) :
    (c.KeyPress K (enterKey K)).consume = true ∧
      (c.KeyPress K (enterKey K)).calls =
        [Call.HasFocus, Call.Current, Call.Execute none, Call.Clear] := by
  rw [KeyPress_unbound K c _ hb]
  simp [Commander.finish, hf, hc, enterKey]

end Completion

end Vidar

namespace Vidar

/-! ## Instances on the sample world -/

/-- Witness for C2: the box awaits input for the third command; Control+O is
bound to the file opener, which offers no step. -/
theorem KeyPress_bound_immediate_witness :
    (sampleCommander { current := some SampleCommand.custom, focus := true }).bindings
        (ctrlO sampleGxui) = some SampleCommand.openFile ∧
      ((sampleCommander { current := some SampleCommand.custom, focus := true }).KeyPress
        sampleGxui (ctrlO sampleGxui)).calls =
        [Call.HasFocus, Call.Run SampleCommand.openFile, Call.Current,
          Call.Execute (some SampleCommand.openFile), Call.Clear] ∧
      ((sampleCommander { current := some SampleCommand.custom, focus := true }).KeyPress
        sampleGxui (ctrlO sampleGxui)).commander.heap =
        ({ current := none, focus := true }, [some SampleCommand.openFile]) :=
  ⟨by decide,
    (KeyPress_bound_immediate sampleGxui sampleNext
      (sampleCommander { current := some SampleCommand.custom, focus := true })
      (ctrlO sampleGxui) SampleCommand.openFile rfl (by decide) (by decide)).2.1,
    (KeyPress_bound_immediate sampleGxui sampleNext
      (sampleCommander { current := some SampleCommand.custom, focus := true })
      (ctrlO sampleGxui) SampleCommand.openFile rfl (by decide) (by decide)).2.2.1⟩

/-- Witness for C3: the box is focused and the unmodified Enter key itself is
bound to the project adder, which offers a step. -/
theorem KeyPress_bound_staged_witness :
    (sampleEnterBound SampleCommand.addProject).bindings (enterKey sampleGxui)
        = some SampleCommand.addProject ∧
      ((sampleEnterBound SampleCommand.addProject).KeyPress sampleGxui
        (enterKey sampleGxui)).calls = [Call.HasFocus, Call.Run SampleCommand.addProject] :=
  ⟨by decide,
    (KeyPress_bound_staged sampleGxui sampleNext (sampleEnterBound SampleCommand.addProject)
      (enterKey sampleGxui) SampleCommand.addProject rfl (by decide) (by decide)).2.1⟩

/-- Witness for C4: the project adder staged in the focused box of the sample
commander, Enter without modifier and Enter with Shift. -/
theorem KeyPress_enter_on_staged_witness :
    (((New sampleGxui sampleConstructed).withHeap
        ({ current := some SampleCommand.addProject, focus := true }, [])).KeyPress sampleGxui
        { Key := sampleGxui.KeyEnter, Modifier := 0 }).calls =
      [Call.HasFocus, Call.Current, Call.Execute (some SampleCommand.addProject), Call.Clear] ∧
    (((New sampleGxui sampleConstructed).withHeap
        ({ current := some SampleCommand.addProject, focus := true }, [])).KeyPress sampleGxui
        { Key := sampleGxui.KeyEnter, Modifier := sampleGxui.ModShift }).calls =
      [Call.HasFocus] :=
  ⟨((KeyPress_enter_on_staged sampleGxui sampleConstructed
      ({ current := some SampleCommand.addProject, focus := true }, [])
      SampleCommand.addProject 0 (by decide) (by decide) rfl rfl).1 rfl).2.1,
    ((KeyPress_enter_on_staged sampleGxui sampleConstructed
      ({ current := some SampleCommand.addProject, focus := true }, [])
      SampleCommand.addProject sampleGxui.ModShift (by decide) (by decide) rfl rfl).2
      (by decide)).2.1⟩

/-- Witness for C6: the plain letter O on an unfocused, idle box. -/
theorem KeyPress_passes_through_witness :
    ((sampleCommander { current := none, focus := false }).KeyPress sampleGxui
        { Key := 33, Modifier := 0 }).consume = false ∧
      ((sampleCommander { current := none, focus := false }).KeyPress sampleGxui
        { Key := 33, Modifier := 0 }).calls = [Call.HasFocus] :=
  ⟨(KeyPress_passes_through sampleGxui (sampleCommander { current := none, focus := false })
      { Key := 33, Modifier := 0 } (by decide) (by decide)).1,
    (KeyPress_passes_through sampleGxui (sampleCommander { current := none, focus := false })
      { Key := 33, Modifier := 0 } (by decide) (by decide)).2.1⟩

/-- Witness for C8: the sample constants have different key codes and the
masks 1, 2 and 8. -/
theorem New_binds_four_chords_witness :
    sampleGxui.KeyO ≠ sampleGxui.KeyN ∧ sampleGxui.ModsSingleBits ∧
      (New sampleGxui sampleConstructed).bindings { Key := 33, Modifier := 10 } = none :=
  ⟨by decide, ⟨0, 1, 3, by decide, by decide, by decide, rfl, rfl, rfl⟩,
    (New_binds_four_chords sampleGxui sampleConstructed (by decide)
      ⟨0, 1, 3, by decide, by decide, by decide, rfl, rfl, rfl⟩).2.2.2.2.2.2.1⟩

/-- Witness for C5: the staged command's step has a Completer that rejects the
unmodified Enter key and accepts Escape; the box is focused and neither key is
bound.  Enter nevertheless executes the staged command (the controller's log
holds it) and clears the box; Escape is not consumed and executes nothing. -/
theorem KeyPress_ignores_completer_witness :
    completerDecision sampleNext SampleCommand.custom (enterKey sampleGxui) = some false ∧
      completerDecision sampleNext SampleCommand.custom sampleEscape = some true ∧
      ((sampleCommander { current := some SampleCommand.custom, focus := true }).KeyPress
        sampleGxui (enterKey sampleGxui)).calls =
        [Call.HasFocus, Call.Current, Call.Execute (some SampleCommand.custom), Call.Clear] ∧
      ((sampleCommander { current := some SampleCommand.custom, focus := true }).KeyPress
        sampleGxui (enterKey sampleGxui)).commander.heap =
        ({ current := none, focus := true }, [some SampleCommand.custom]) ∧
      ((sampleCommander { current := some SampleCommand.custom, focus := true }).KeyPress
        sampleGxui sampleEscape).consume = false ∧
      ((sampleCommander { current := some SampleCommand.custom, focus := true }).KeyPress
        sampleGxui sampleEscape).commander.heap =
        ({ current := some SampleCommand.custom, focus := true }, []) :=
  ⟨by decide, by decide,
    (KeyPress_ignores_completer sampleGxui sampleNext
      (sampleCommander { current := some SampleCommand.custom, focus := true })
      SampleCommand.custom sampleEscape rfl rfl (by decide) (by decide) (by decide)
      (by decide)).1.2.1,
    (KeyPress_ignores_completer sampleGxui sampleNext
      (sampleCommander { current := some SampleCommand.custom, focus := true })
      SampleCommand.custom sampleEscape rfl rfl (by decide) (by decide) (by decide)
      (by decide)).1.2.2.1,
    (KeyPress_ignores_completer sampleGxui sampleNext
      (sampleCommander { current := some SampleCommand.custom, focus := true })
      SampleCommand.custom sampleEscape rfl rfl (by decide) (by decide) (by decide)
      (by decide)).2.1,
    congrArg Commander.heap
      (KeyPress_ignores_completer sampleGxui sampleNext
        (sampleCommander { current := some SampleCommand.custom, focus := true })
        SampleCommand.custom sampleEscape rfl rfl (by decide) (by decide) (by decide)
        (by decide)).2.2.2⟩

/-- Counterexample to C7: the box is focused on the staged third command and
the unmodified Enter key is bound.  Bound to the project adder (which asks for
input), Enter stages the project adder, `Execute` is not called at all and the
controller's log stays empty; bound to the file opener (which does not), Enter
executes the file opener.  In neither case is the staged command executed. -/
theorem KeyPress_bound_enter_counterexample :
    (sampleEnterBound SampleCommand.addProject).box.HasFocus
        (sampleEnterBound SampleCommand.addProject).heap = true ∧
      (sampleEnterBound SampleCommand.addProject).box.Current
        (sampleEnterBound SampleCommand.addProject).heap = some SampleCommand.custom ∧
      ((sampleEnterBound SampleCommand.addProject).KeyPress sampleGxui
        (enterKey sampleGxui)).calls = [Call.HasFocus, Call.Run SampleCommand.addProject] ∧
      ((sampleEnterBound SampleCommand.addProject).KeyPress sampleGxui
        (enterKey sampleGxui)).commander.heap.1.current = some SampleCommand.addProject ∧
      ((sampleEnterBound SampleCommand.addProject).KeyPress sampleGxui
        (enterKey sampleGxui)).commander.heap =
        ({ current := some SampleCommand.addProject, focus := true }, []) ∧
      ((sampleEnterBound SampleCommand.openFile).KeyPress sampleGxui
        (enterKey sampleGxui)).calls =
        [Call.HasFocus, Call.Run SampleCommand.openFile, Call.Current,
          Call.Execute (some SampleCommand.openFile), Call.Clear] ∧
      ((sampleEnterBound SampleCommand.openFile).KeyPress sampleGxui
        (enterKey sampleGxui)).commander.heap =
        ({ current := none, focus := true }, [some SampleCommand.openFile]) := by
  decide

/-- Witness for C7 as the code has it: Enter bound to the project adder on the
focused box; the state afterwards is the one `Run` left, the controller's log
is empty. -/
theorem KeyPress_bound_enter_witness :
    ((sampleEnterBound SampleCommand.addProject).KeyPress sampleGxui
        (enterKey sampleGxui)).consume = true ∧
      ((sampleEnterBound SampleCommand.addProject).KeyPress sampleGxui
        (enterKey sampleGxui)).commander.heap =
        ({ current := some SampleCommand.addProject, focus := true }, []) :=
  ⟨(KeyPress_bound_enter sampleGxui (sampleEnterBound SampleCommand.addProject)
      SampleCommand.addProject rfl (by decide)).2.1,
    ((KeyPress_bound_enter sampleGxui (sampleEnterBound SampleCommand.addProject)
      SampleCommand.addProject rfl (by decide)).2.2.2.1 (by decide)).2⟩

/-- Witness for C10: the sample commander with a focused, idle box receives the
unmodified Enter key and calls `Execute(nil)`. -/
theorem KeyPress_executes_nil_witness :
    ((sampleCommander { current := none, focus := true }).KeyPress sampleGxui
        (enterKey sampleGxui)).calls =
      [Call.HasFocus, Call.Current, Call.Execute none, Call.Clear] :=
  (KeyPress_executes_nil sampleGxui (sampleCommander { current := none, focus := true })
    (by decide) rfl rfl).2

end Vidar
